import Mathlib

/-!
Shallow embedding of the Jacobin JVM core (Go) for specification checking.

The embedding follows `src/jvm/run.go` (bytecode interpreter),
`src/jvm/instantiate.go` (field creation) and
`src/classloader/parserUtils.go` (UTF8 lookup helpers).

Conventions:
* Go `int64` values are modelled as `Int`; operations that can wrap use an
  explicit reduction modulo 2^64 (`wrap64`).  Go's `int64` division is
  defined (Go spec, "Integer operators"): division by zero panics at the
  call site (the interpreter checks for it first), and the single overflow
  case `minInt64 / -1` wraps to `minInt64` with remainder 0.
* Go `float64` values are abstracted by `GoFloat`, which records the IEEE
  class (NaN, infinity, signed zero, nonzero finite) and the sign, with an
  exact rational magnitude for finite values.  Rounding and overflow of
  finite arithmetic are not modelled; the claims under study only concern
  zero divisors, NaN and signs.
* Operand stacks are lists of tagged values (`Val`), top first, mirroring
  the `interface{}` operand stack of `frames.Frame`.  A failed Go type
  assertion at a `pop` site, a pop from an empty stack, or a negative
  slice index are modelled by the `goPanic` outcome (a Go run-time panic).
* `exceptions.Throw e` followed by `shutdown.Exit(shutdown.APP_EXCEPTION)`
  is modelled by the terminal outcome `thrown e APP_EXCEPTION s`, carrying
  the operand stack as it stands when the throw happens.
-/

/-- Reduce an integer into the signed 64-bit range, two's complement. -/
def wrap64 (n : Int) : Int := (n + 2 ^ 63) % 2 ^ 64 - 2 ^ 63

/-- Go's `int32(x)` conversion of an integer value: two's-complement wrap. -/
def goInt32 (n : Int) : Int := (n + 2 ^ 31) % 2 ^ 32 - 2 ^ 31

/-- Go's `int16` arithmetic result: two's-complement wrap into 16 bits. -/
def goInt16 (n : Int) : Int := (n + 2 ^ 15) % 2 ^ 16 - 2 ^ 15

/-- Go's `/` on `int64` (run.go `val2 / val1`): truncated division; the one
overflow case `minInt64 / -1` wraps (Go spec), which `wrap64` captures. -/
def goDiv (a b : Int) : Int := wrap64 (Int.tdiv a b)

/-- Go's `%` on `int64` (run.go `val1 % val2`): truncated remainder, sign of
the dividend; never overflows for in-range arguments. -/
def goRem (a b : Int) : Int := Int.tmod a b

/-- Abstraction of a Go `float64`: IEEE class and sign.  `true` means the
sign bit is set (negative).  Finite nonzero values carry their exact
magnitude as a rational; rounding is not modelled. -/
inductive GoFloat where
  | nan : GoFloat
  | inf : Bool → GoFloat
  | zero : Bool → GoFloat
  | fin : Bool → ℚ → GoFloat
deriving DecidableEq

/-- Go's `x == 0.0` on float64: true exactly for positive and negative zero
(false for NaN, infinities and nonzero finite values). -/
def goEqZero : GoFloat → Bool
  | .zero _ => true
  | _ => false

/-- Go's `math.Signbit`: reports whether the sign bit is set.  `math.NaN()`
returns a NaN with clear sign bit. -/
def goSignbit : GoFloat → Bool
  | .nan => false
  | .inf s => s
  | .zero s => s
  | .fin s _ => s

/-- Go's `math.NaN()`. -/
def mathNaN : GoFloat := .nan

/-- Go's `math.Inf(sign)`: positive infinity when `sign >= 0`, negative
infinity when `sign < 0`. -/
def mathInf (sign : Int) : GoFloat := .inf (decide (sign < 0))

/-- IEEE float division for the non-zero-divisor paths of FDIV/DDIV.
Signs combine by exclusive or; finite magnitudes divide exactly (the
float32/float64 rounding of run.go's else-branches is abstracted away). -/
def goFloatDiv : GoFloat → GoFloat → GoFloat
  | .nan, _ => .nan
  | _, .nan => .nan
  | .inf _, .inf _ => .nan
  | .inf s, .zero t => .inf (xor s t)
  | .inf s, .fin t _ => .inf (xor s t)
  | .zero s, .inf t => .zero (xor s t)
  | .zero _, .zero _ => .nan
  | .zero s, .fin t _ => .zero (xor s t)
  | .fin s _, .inf t => .zero (xor s t)
  | .fin s _, .zero t => .inf (xor s t)
  | .fin s a, .fin t b => .fin (xor s t) (a / b)

/-- A value held in one slot of the operand stack (`frames.Frame.OpStack`
holds `interface{}` values).  `i` is a Go `int64`, `f` a Go `float64`, and
`arr` a `*object.Object` whose single field holds an `int64` array backing
buffer (`none` is the nil pointer). -/
inductive Val where
  | i : Int → Val
  | f : GoFloat → Val
  | arr : Option (List Int) → Val
deriving DecidableEq

/-- Java exceptions raised by the opcodes under study. -/
inductive Exc where
  | ArithmeticException : Exc
  | NullPointerException : Exc
  | ArrayIndexOutOfBoundsException : Exc
deriving DecidableEq

/-- Shutdown codes passed to the fatal-exit hook `shutdown.Exit`. -/
inductive FatalCode where
  | APP_EXCEPTION : FatalCode
deriving DecidableEq

/-- Outcome of executing one opcode: a new operand stack, a raised Java
exception with the fatal-exit code (terminal; the stack as it stood at the
throw is recorded), or a Go run-time panic. -/
inductive StepOut where
  | ok : List Val → StepOut
  | thrown : Exc → FatalCode → List Val → StepOut
  | goPanic : StepOut
deriving DecidableEq

/-- IDIV (run.go 836-845): pop the divisor; if it is zero, throw
ArithmeticException and exit with APP_EXCEPTION (the dividend stays on the
stack and nothing is pushed); otherwise pop the dividend and push the
quotient. -/
def idivStep : List Val → StepOut
  | Val.i val1 :: rest =>
      if val1 = 0 then
        .thrown .ArithmeticException .APP_EXCEPTION rest
      else
        match rest with
        | Val.i val2 :: rest2 => .ok (Val.i (goDiv val2 val1) :: rest2)
        | _ => .goPanic
  | _ => .goPanic

/-- LDIV (run.go 846-859): pop the divisor twice (longs use two slots); if
zero, throw ArithmeticException and exit with APP_EXCEPTION; otherwise pop
the dividend twice and push the quotient twice. -/
def ldivStep : List Val → StepOut
  | Val.i val2 :: _ :: rest =>
      if val2 = 0 then
        .thrown .ArithmeticException .APP_EXCEPTION rest
      else
        match rest with
        | Val.i val1 :: _ :: rest2 =>
            .ok (Val.i (goDiv val1 val2) :: Val.i (goDiv val1 val2) :: rest2)
        | _ => .goPanic
  | _ => .goPanic

/-- IREM (run.go 892-902): pop the divisor; if zero, throw
ArithmeticException and exit with APP_EXCEPTION; otherwise pop the dividend
and push the remainder. -/
def iremStep : List Val → StepOut
  | Val.i val2 :: rest =>
      if val2 = 0 then
        .thrown .ArithmeticException .APP_EXCEPTION rest
      else
        match rest with
        | Val.i val1 :: rest2 => .ok (Val.i (goRem val1 val2) :: rest2)
        | _ => .goPanic
  | _ => .goPanic

/-- LREM (run.go 903-916): pop the divisor twice; if zero, throw
ArithmeticException and exit with APP_EXCEPTION; otherwise pop the dividend
twice and push the remainder twice. -/
def lremStep : List Val → StepOut
  | Val.i val2 :: _ :: rest =>
      if val2 = 0 then
        .thrown .ArithmeticException .APP_EXCEPTION rest
      else
        match rest with
        | Val.i val1 :: _ :: rest2 =>
            .ok (Val.i (goRem val1 val2) :: Val.i (goRem val1 val2) :: rest2)
        | _ => .goPanic
  | _ => .goPanic

/-- C1: Every execution of idiv, ldiv, irem or lrem with popped divisor 0
raises ArithmeticException, invokes the fatal-exit hook with APP_EXCEPTION,
and pushes no quotient or remainder; with a nonzero divisor the quotient or
remainder of the two popped operands is pushed (twice for the long forms).
The quotient and remainder agree with truncated integer division whenever
the one int64 overflow case (dividend `-2^63`, divisor `-1`) is avoided. -/
theorem c1_int_div_by_zero (d a : Int) (x y : Val) (rest : List Val) :
    (d = 0 →
      idivStep (Val.i d :: rest) = .thrown .ArithmeticException .APP_EXCEPTION rest ∧
      ldivStep (Val.i d :: x :: rest) = .thrown .ArithmeticException .APP_EXCEPTION rest ∧
      iremStep (Val.i d :: rest) = .thrown .ArithmeticException .APP_EXCEPTION rest ∧
      lremStep (Val.i d :: x :: rest) = .thrown .ArithmeticException .APP_EXCEPTION rest) ∧
    (d ≠ 0 →
      idivStep (Val.i d :: Val.i a :: rest) = .ok (Val.i (goDiv a d) :: rest) ∧
      ldivStep (Val.i d :: x :: Val.i a :: y :: rest) =
        .ok (Val.i (goDiv a d) :: Val.i (goDiv a d) :: rest) ∧
      iremStep (Val.i d :: Val.i a :: rest) = .ok (Val.i (goRem a d) :: rest) ∧
      lremStep (Val.i d :: x :: Val.i a :: y :: rest) =
        .ok (Val.i (goRem a d) :: Val.i (goRem a d) :: rest)) ∧
    (¬ (a = -(2 ^ 63) ∧ d = -1) → -(2 ^ 63) ≤ a → a < 2 ^ 63 → -(2 ^ 63) ≤ d → d < 2 ^ 63 →
      goDiv a d = Int.tdiv a d ∧ goRem a d = Int.tmod a d) := by
  refine ⟨fun h0 => ?_, fun hne => ?_, fun hov h1 h2 h3 h4 => ?_⟩
  · subst h0
    exact ⟨rfl, rfl, rfl, rfl⟩
  · simp [idivStep, ldivStep, iremStep, lremStep, hne]
  · refine ⟨?_, rfl⟩
    show wrap64 (Int.tdiv a d) = Int.tdiv a d
    have hrange : -(2 ^ 63) ≤ Int.tdiv a d ∧ Int.tdiv a d < 2 ^ 63 := by
      rcases eq_or_ne d 0 with rfl | hd0
      · rw [Int.tdiv_zero]; omega
      rcases eq_or_ne d 1 with rfl | hd1
      · rw [Int.tdiv_one]; omega
      rcases eq_or_ne d (-1) with rfl | hdm1
      · have hne : Int.tdiv a (-1) = -a := by
          rw [Int.tdiv_neg, Int.tdiv_one]
        have hamin : a ≠ -(2 ^ 63) := fun h => hov ⟨h, rfl⟩
        rw [hne]; omega
      · have hd2 : 2 ≤ d.natAbs := by omega
        have hNa : a.natAbs ≤ 2 ^ 63 := by omega
        have hq : (Int.tdiv a d).natAbs ≤ 2 ^ 62 := by
          rw [Int.natAbs_tdiv]
          calc a.natAbs / d.natAbs ≤ a.natAbs / 2 :=
                Nat.div_le_div_left hd2 (by norm_num)
            _ ≤ 2 ^ 63 / 2 := Nat.div_le_div_right hNa
            _ = 2 ^ 62 := by norm_num
        omega
    unfold wrap64
    omega

/-- Witness for c1_int_div_by_zero at divisor 0 and at divisor 3, dividend 7. -/
theorem c1_int_div_by_zero_witness :
    idivStep [Val.i 0, Val.i 7] = .thrown .ArithmeticException .APP_EXCEPTION [Val.i 7] ∧
    idivStep [Val.i 3, Val.i 7] = .ok [Val.i 2] ∧
    goDiv 7 3 = Int.tdiv 7 3 := by
  have h := c1_int_div_by_zero 0 7 (Val.i 7) (Val.i 7) [Val.i 7]
  have h2 := c1_int_div_by_zero 3 7 (Val.i 7) (Val.i 7) []
  refine ⟨(h.1 rfl).1, ?_, ?_⟩
  · have := (h2.2.1 (by decide)).1
    exact this
  · exact (h2.2.2 (by decide) (by decide) (by decide) (by decide) (by decide)).1

/-- FDIV (run.go 860-873): pop the divisor `val1`, pop the dividend `val2`.
If the divisor compares equal to 0.0: push NaN when the dividend is also
0.0, else push +infinity when the divisor's sign bit is set, else push
-infinity.  Otherwise push the 32-bit quotient widened back to float64. -/
def fdivStep : List Val → StepOut
  | Val.f val1 :: Val.f val2 :: rest =>
      if goEqZero val1 then
        if goEqZero val2 then .ok (Val.f mathNaN :: rest)
        else if goSignbit val1 then .ok (Val.f (mathInf 1) :: rest)
        else .ok (Val.f (mathInf (-1)) :: rest)
      else .ok (Val.f (goFloatDiv val2 val1) :: rest)
  | _ => .goPanic

/-- DDIV (run.go 874-891): pop divisor twice, pop dividend twice; same
zero-divisor logic as FDIV (the special results are pushed once), else the
quotient is pushed twice. -/
def ddivStep : List Val → StepOut
  | Val.f val1 :: _ :: Val.f val2 :: _ :: rest =>
      if goEqZero val1 then
        if goEqZero val2 then .ok (Val.f mathNaN :: rest)
        else if goSignbit val1 then .ok (Val.f (mathInf 1) :: rest)
        else .ok (Val.f (mathInf (-1)) :: rest)
      else .ok (Val.f (goFloatDiv val2 val1) :: Val.f (goFloatDiv val2 val1) :: rest)
  | _ => .goPanic

/-- C2 (code bug, evaluation at the failing input): dividing the positive
dividend 1.0 by the positive-zero divisor +0.0, FDIV and DDIV push negative
infinity, although the dividend's sign is positive; the 0.0/0.0 case does
push NaN as claimed.  The sign of the pushed infinity comes from the
divisor's sign bit (inverted), not from the dividend. -/
theorem c2_fdiv_sign_of_infinity :
    fdivStep [Val.f (GoFloat.zero false), Val.f (GoFloat.fin false 1)] =
      .ok [Val.f (GoFloat.inf true)] ∧
    ddivStep [Val.f (GoFloat.zero false), Val.f (GoFloat.zero false),
        Val.f (GoFloat.fin false 1), Val.f (GoFloat.fin false 1)] =
      .ok [Val.f (GoFloat.inf true)] ∧
    goSignbit (GoFloat.fin false 1) = false ∧
    GoFloat.inf true ≠ GoFloat.inf false ∧
    fdivStep [Val.f (GoFloat.zero false), Val.f (GoFloat.zero false)] =
      .ok [Val.f GoFloat.nan] := by
  refine ⟨rfl, rfl, rfl, by decide, rfl⟩

/-- Go's `math.Trunc`: truncate toward zero, preserving NaN, infinities and
the sign of zero (a finite magnitude below 1 truncates to a signed zero). -/
def mathTrunc : GoFloat → GoFloat
  | .nan => .nan
  | .inf s => .inf s
  | .zero s => .zero s
  | .fin s m => if m < 1 then .zero s else .fin s (⌊m⌋ : ℚ)

/-- Go's `int64(x)` conversion from float64, as compiled by gc for
amd64/arm64 hosts running Jacobin: truncation toward zero for in-range
finite values; NaN, infinities and out-of-range values produce the
x86 "integer indefinite" value `-2^63` (the Go spec leaves these cases
implementation-dependent; no code in run.go guards them). -/
def goInt64ofFloat : GoFloat → Int
  | .nan => -(2 ^ 63)
  | .inf _ => -(2 ^ 63)
  | .zero _ => 0
  | .fin s m =>
      let t : Int := if s then -⌊m⌋ else ⌊m⌋
      if t < -(2 ^ 63) ∨ 2 ^ 63 ≤ t then -(2 ^ 63) else t

/-- F2I (run.go 1066-1068): pop a float64, push `int64(math.Trunc(v))`. -/
def f2iStep : List Val → StepOut
  | Val.f floatVal :: rest => .ok (Val.i (goInt64ofFloat (mathTrunc floatVal)) :: rest)
  | _ => .goPanic

/-- D2I (run.go 1063-1065): pop the duplicate double slot, then fall
through to the F2I code. -/
def d2iStep : List Val → StepOut
  | _ :: rest => f2iStep rest
  | _ => .goPanic

/-- C4 (code bug, evaluation at the failing input): f2i and d2i on NaN push
`int64(math.Trunc(NaN))`, which is `-2^63` on the gc targets Jacobin runs
on, not the 0 the claim (and the JVM specification) requires; truncation
toward zero does hold for in-range finite values such as -3.5 -> -3. -/
theorem c4_f2i_nan :
    f2iStep [Val.f GoFloat.nan] = .ok [Val.i (-(2 ^ 63))] ∧
    d2iStep [Val.f GoFloat.nan, Val.f GoFloat.nan] = .ok [Val.i (-(2 ^ 63))] ∧
    (-(2 ^ 63) : Int) ≠ 0 ∧
    f2iStep [Val.f (GoFloat.fin true (7 / 2))] = .ok [Val.i (-3)] := by
  refine ⟨rfl, rfl, by decide, ?_⟩
  show StepOut.ok [Val.i (goInt64ofFloat (mathTrunc (GoFloat.fin true (7 / 2))))] = _
  norm_num [mathTrunc, goInt64ofFloat]

/-- IALOAD/CALOAD/SALOAD (run.go 359-375): pop the index, pop the array
reference; a nil reference throws NullPointerException and exits with
APP_EXCEPTION; an index at or beyond the array length throws
ArrayIndexOutOfBoundsException and exits with APP_EXCEPTION; otherwise the
element is pushed.  A negative index passes the bounds test
`index >= int64(len(array))` and the access `array[index]` is a Go
run-time panic. -/
def ialoadStep : List Val → StepOut
  | Val.i index :: Val.arr iAref :: rest =>
      match iAref with
      | none => .thrown .NullPointerException .APP_EXCEPTION rest
      | some array =>
          if (array.length : Int) ≤ index then
            .thrown .ArrayIndexOutOfBoundsException .APP_EXCEPTION rest
          else if index < 0 then .goPanic
          else .ok (Val.i (array.getD index.toNat 0) :: rest)
  | _ => .goPanic

/-- C6 (code bug, evaluation at the failing input): the null check and the
upper bounds check behave as claimed (including on a zero-length array),
but a negative index -- here iaload at index -1 on an int array of length
1 -- crashes the interpreter with a Go run-time panic instead of raising
ArrayIndexOutOfBoundsException. -/
theorem c6_iaload_negative_index :
    ialoadStep [Val.i 0, Val.arr none] =
      .thrown .NullPointerException .APP_EXCEPTION [] ∧
    ialoadStep [Val.i 0, Val.arr (some [])] =
      .thrown .ArrayIndexOutOfBoundsException .APP_EXCEPTION [] ∧
    ialoadStep [Val.i (-1), Val.arr (some [42])] = .goPanic ∧
    (StepOut.goPanic ≠
      .thrown .ArrayIndexOutOfBoundsException .APP_EXCEPTION []) ∧
    ialoadStep [Val.i 0, Val.arr (some [42])] = .ok [Val.i 42] := by
  refine ⟨rfl, ?_, ?_, by decide, ?_⟩ <;> decide

/-- Opcode values, as listed in the case comments of run.go. -/
def GOTO : Nat := 0xA7

def IFEQ : Nat := 0x99

def IFNE : Nat := 0x9A

def IFLT : Nat := 0x9B

def IFGE : Nat := 0x9C

def IFGT : Nat := 0x9D

def IFLE : Nat := 0x9E

def IF_ICMPEQ : Nat := 0x9F

def IF_ICMPNE : Nat := 0xA0

def IF_ICMPLT : Nat := 0xA1

def IF_ICMPGE : Nat := 0xA2

def IF_ICMPGT : Nat := 0xA3

def IF_ICMPLE : Nat := 0xA4

def IF_ACMPEQ : Nat := 0xA5

def IF_ACMPNE : Nat := 0xA6

def IFNULL : Nat := 0xC6

def IFNONNULL : Nat := 0xC7

def ACONST_NULL : Nat := 0x01

def ICONST_0 : Nat := 0x03

/-- The part of `frames.Frame` the branch opcodes touch: the method's byte
code, the program counter `f.PC` (a Go `int`) and the operand stack. -/
structure Frame where
  meth : List Nat
  pc : Int
  stack : List Val
deriving DecidableEq

/-- Read `f.Meth[i]`.  The branch opcodes only read in-range operand bytes
(the theorems below carry the bounds); out-of-range reads default to 0. -/
def byteAt (meth : List Nat) (i : Int) : Nat := meth.getD i.toNat 0

/-- run.go's branch-offset computation
`(int16(f.Meth[f.PC+1]) * 256) + int16(f.Meth[f.PC+2])`: both bytes convert
losslessly to int16, the multiplication wraps in int16 arithmetic, and the
final addition cannot overflow. -/
def jumpTo (b1 b2 : Nat) : Int := goInt16 (goInt16 ((b1 : Int) * 256) + (b2 : Int))

/-- The value of a two-byte big-endian signed 16-bit offset (the
specification's reading of the operand bytes). -/
def signed16 (n : Nat) : Int :=
  if n < 2 ^ 15 then (n : Int) else (n : Int) - 2 ^ 16

/-- The int16 wrap-around of run.go's offset arithmetic computes exactly
the signed 16-bit big-endian value of the two operand bytes. -/
theorem jumpTo_eq_signed16 {b1 b2 : Nat} (h1 : b1 < 256) (h2 : b2 < 256) :
    jumpTo b1 b2 = signed16 (b1 * 256 + b2) := by
  unfold jumpTo goInt16 signed16
  have h1' : (b1 : Int) < 256 := by exact_mod_cast h1
  have h2' : (b2 : Int) < 256 := by exact_mod_cast h2
  have h1n : (0 : Int) ≤ (b1 : Int) := Int.ofNat_nonneg b1
  have h2n : (0 : Int) ≤ (b2 : Int) := Int.ofNat_nonneg b2
  rcases lt_or_ge (b1 * 256 + b2) (2 ^ 15) with h | h
  · rw [if_pos h]
    have h' : (b1 : Int) * 256 + (b2 : Int) < 2 ^ 15 := by exact_mod_cast h
    push_cast
    omega
  · rw [if_neg (not_lt.mpr h)]
    have h' : (2 : Int) ^ 15 ≤ (b1 : Int) * 256 + (b2 : Int) := by exact_mod_cast h
    push_cast
    omega

/-- The opcodes that pop one int and test it against 0 (run.go 1134-1187,
1798-1815; IFNULL and IFNONNULL duplicate the IFEQ/IFNE logic). -/
def isOneOpBranch (op : Nat) : Bool :=
  op == IFEQ || op == IFNE || op == IFLT || op == IFGE || op == IFGT ||
    op == IFLE || op == IFNULL || op == IFNONNULL

/-- The opcodes that pop two ints and compare them (run.go 1188-1261). -/
def isTwoOpBranch (op : Nat) : Bool :=
  op == IF_ICMPEQ || op == IF_ICMPNE || op == IF_ICMPLT || op == IF_ICMPGE ||
    op == IF_ICMPGT || op == IF_ICMPLE || op == IF_ACMPEQ || op == IF_ACMPNE

/-- The branch condition of the one-operand branches, on the popped value. -/
def oneOpCond (op : Nat) (v : Int) : Bool :=
  if op = IFEQ then v == 0
  else if op = IFNE then !(v == 0)
  else if op = IFLT then decide (v < 0)
  else if op = IFGE then decide (0 ≤ v)
  else if op = IFGT then decide (0 < v)
  else if op = IFLE then decide (v ≤ 0)
  else if op = IFNULL then v == 0
  else if op = IFNONNULL then !(v == 0)
  else false

/-- The branch condition of the two-operand branches on the popped values
`val1` (pushed first) and `val2` (top of stack).  Per run.go, IF_ICMPEQ,
IF_ICMPNE and IF_ICMPGT compare the values as int32; IF_ICMPLT, IF_ICMPGE
and IF_ICMPLE compare the raw int64 values; the IF_ACMP forms compare the
raw values. -/
def twoOpCond (op : Nat) (val1 val2 : Int) : Bool :=
  if op = IF_ICMPEQ then goInt32 val1 == goInt32 val2
  else if op = IF_ICMPNE then !(goInt32 val1 == goInt32 val2)
  else if op = IF_ICMPLT then decide (val1 < val2)
  else if op = IF_ICMPGE then decide (val1 ≥ val2)
  else if op = IF_ICMPGT then decide (goInt32 val1 > goInt32 val2)
  else if op = IF_ICMPLE then decide (val1 ≤ val2)
  else if op = IF_ACMPEQ then val1 == val2
  else if op = IF_ACMPNE then !(val1 == val2)
  else false

/-- One iteration of the dispatch loop for the branch opcodes (run.go
1134-1264, 1798-1815), up to but not including the loop's trailing
`f.PC += 1`.  A taken branch sets `f.PC = f.PC + jumpTo - 1`; a branch not
taken sets `f.PC += 2` past the operand bytes; `none` is a Go panic from a
failed type assertion or an empty-stack pop. -/
def stepBranch (fr : Frame) : Option Frame :=
  if byteAt fr.meth fr.pc = GOTO then
    some { fr with
      pc := fr.pc + jumpTo (byteAt fr.meth (fr.pc + 1)) (byteAt fr.meth (fr.pc + 2)) - 1 }
  else if isOneOpBranch (byteAt fr.meth fr.pc) then
    match fr.stack with
    | Val.i v :: rest =>
        if oneOpCond (byteAt fr.meth fr.pc) v then
          some { fr with
            pc := fr.pc + jumpTo (byteAt fr.meth (fr.pc + 1)) (byteAt fr.meth (fr.pc + 2)) - 1,
            stack := rest }
        else some { fr with pc := fr.pc + 2, stack := rest }
    | _ => none
  else if isTwoOpBranch (byteAt fr.meth fr.pc) then
    match fr.stack with
    | Val.i val2 :: Val.i val1 :: rest =>
        if twoOpCond (byteAt fr.meth fr.pc) val1 val2 then
          some { fr with
            pc := fr.pc + jumpTo (byteAt fr.meth (fr.pc + 1)) (byteAt fr.meth (fr.pc + 2)) - 1,
            stack := rest }
        else some { fr with pc := fr.pc + 2, stack := rest }
    | _ => none
  else none

/-- The dispatch loop's trailing `f.PC += 1` (run.go 1828). -/
def loopAdvance (fr : Frame) : Frame := { fr with pc := fr.pc + 1 }

/-- Whether the branch at the current opcode is taken: GOTO always, the
conditional forms exactly when their popped operands satisfy the tested
condition. -/
def branchTaken (fr : Frame) : Bool :=
  if byteAt fr.meth fr.pc = GOTO then true
  else if isOneOpBranch (byteAt fr.meth fr.pc) then
    match fr.stack with
    | Val.i v :: _ => oneOpCond (byteAt fr.meth fr.pc) v
    | _ => false
  else if isTwoOpBranch (byteAt fr.meth fr.pc) then
    match fr.stack with
    | Val.i val2 :: Val.i val1 :: _ => twoOpCond (byteAt fr.meth fr.pc) val1 val2
    | _ => false
  else false

/-- C3: For every branch opcode (goto, the if<cond> forms, the if_icmp and
if_acmp forms, ifnull/ifnonnull) whose branch is taken, the program counter
at the next dispatch (after the loop's `f.PC += 1`) equals the branch
opcode's program counter plus the signed 16-bit big-endian offset formed
from the two operand bytes, for every offset including negative ones and
those whose high byte is at least 0x80. -/
theorem c3_branch_target (fr : Frame)
    (hb1 : byteAt fr.meth (fr.pc + 1) < 256)
    (hb2 : byteAt fr.meth (fr.pc + 2) < 256)
    (ht : branchTaken fr = true) :
    ∃ fr2, stepBranch fr = some fr2 ∧
      (loopAdvance fr2).pc =
        fr.pc + signed16 (byteAt fr.meth (fr.pc + 1) * 256 + byteAt fr.meth (fr.pc + 2)) := by
  obtain ⟨meth, pc, stack⟩ := fr
  simp only at hb1 hb2 ht ⊢
  by_cases hG : byteAt meth pc = GOTO
  · refine ⟨⟨meth, pc + jumpTo (byteAt meth (pc + 1)) (byteAt meth (pc + 2)) - 1,
      stack⟩, ?_, ?_⟩
    · simp [stepBranch, hG]
    · simp [loopAdvance, jumpTo_eq_signed16 hb1 hb2]
  · by_cases h1 : isOneOpBranch (byteAt meth pc)
    · rcases stack with _ | ⟨hd, tl⟩
      · simp [branchTaken, hG, h1] at ht
      · cases hd with
        | i v =>
            simp [branchTaken, hG, h1] at ht
            refine ⟨⟨meth, pc + jumpTo (byteAt meth (pc + 1)) (byteAt meth (pc + 2)) - 1,
              tl⟩, ?_, ?_⟩
            · simp [stepBranch, hG, h1, ht]
            · simp [loopAdvance, jumpTo_eq_signed16 hb1 hb2]
        | f x => simp [branchTaken, hG, h1] at ht
        | arr a => simp [branchTaken, hG, h1] at ht
    · by_cases h2 : isTwoOpBranch (byteAt meth pc)
      · rcases stack with _ | ⟨hd, tl⟩
        · simp [branchTaken, hG, h1, h2] at ht
        · cases hd with
          | i v2 =>
              rcases tl with _ | ⟨hd2, tl2⟩
              · simp [branchTaken, hG, h1, h2] at ht
              · cases hd2 with
                | i v1 =>
                    simp [branchTaken, hG, h1, h2] at ht
                    refine ⟨⟨meth,
                      pc + jumpTo (byteAt meth (pc + 1)) (byteAt meth (pc + 2)) - 1,
                      tl2⟩, ?_, ?_⟩
                    · simp [stepBranch, hG, h1, h2, ht]
                    · simp [loopAdvance, jumpTo_eq_signed16 hb1 hb2]
                | f x => simp [branchTaken, hG, h1, h2] at ht
                | arr a => simp [branchTaken, hG, h1, h2] at ht
          | f x => simp [branchTaken, hG, h1, h2] at ht
          | arr a => simp [branchTaken, hG, h1, h2] at ht
      · simp [branchTaken, hG, h1, h2] at ht

/-- Witness for c3_branch_target: an ifeq at pc 0 on a popped 0, with
operand bytes 0xFF 0xFE (offset -2), lands the next dispatch at pc -2. -/
theorem c3_branch_target_witness :
    byteAt [0x99, 0xFF, 0xFE] (0 + 1) < 256 ∧
    byteAt [0x99, 0xFF, 0xFE] (0 + 2) < 256 ∧
    branchTaken ⟨[0x99, 0xFF, 0xFE], 0, [Val.i 0]⟩ = true ∧
    ∃ fr2, stepBranch ⟨[0x99, 0xFF, 0xFE], 0, [Val.i 0]⟩ = some fr2 ∧
      (loopAdvance fr2).pc =
        0 + signed16 (byteAt [0x99, 0xFF, 0xFE] (0 + 1) * 256 +
          byteAt [0x99, 0xFF, 0xFE] (0 + 2)) := by
  refine ⟨by decide, by decide, by decide, ?_⟩
  exact c3_branch_target ⟨[0x99, 0xFF, 0xFE], 0, [Val.i 0]⟩
    (by decide) (by decide) (by decide)

/-- ACONST_NULL (run.go 172-173) and ICONST_0 (run.go 176-177): both cases
execute `push(f, int64(0))`. -/
def stepConst (op : Nat) (s : List Val) : Option (List Val) :=
  if op = ACONST_NULL then some (Val.i 0 :: s)
  else if op = ICONST_0 then some (Val.i 0 :: s)
  else none

/-- C10: A null reference on the operand stack is the int64 value 0:
aconst_null pushes exactly what iconst_0 pushes (the int64 0, not a
reference-tagged value), and ifnull/ifnonnull pop an int64 and take the
branch exactly when it equals/differs from 0 (their conditions coincide
with ifeq/ifne), so null is indistinguishable from the int value 0 at the
operand-stack interface. -/
theorem c10_null_is_int64_zero (s : List Val) (fr : Frame) (v : Int) (rest : List Val) :
    stepConst ACONST_NULL s = some (Val.i 0 :: s) ∧
    stepConst ACONST_NULL s = stepConst ICONST_0 s ∧
    (byteAt fr.meth fr.pc = IFNULL → fr.stack = Val.i v :: rest →
      (branchTaken fr = true ↔ v = 0)) ∧
    (byteAt fr.meth fr.pc = IFNONNULL → fr.stack = Val.i v :: rest →
      (branchTaken fr = true ↔ v ≠ 0)) ∧
    (∀ w : Int, oneOpCond IFNULL w = oneOpCond IFEQ w ∧
      oneOpCond IFNONNULL w = oneOpCond IFNE w) := by
  refine ⟨rfl, rfl, fun hop hs => ?_, fun hop hs => ?_, fun w => ⟨rfl, rfl⟩⟩
  · obtain ⟨meth, pc, stack⟩ := fr
    simp only at hop hs
    subst hs
    simp [branchTaken, hop, isOneOpBranch, oneOpCond, GOTO, IFNULL, IFEQ, IFNE,
      IFLT, IFGE, IFGT, IFLE, IFNONNULL]
  · obtain ⟨meth, pc, stack⟩ := fr
    simp only at hop hs
    subst hs
    simp [branchTaken, hop, isOneOpBranch, oneOpCond, GOTO, IFNULL, IFEQ, IFNE,
      IFLT, IFGE, IFGT, IFLE, IFNONNULL]

/-- Witness for c10_null_is_int64_zero: an ifnull at pc 0 over a pushed
null (int64 0) takes the branch; an ifnonnull over the same value does
not. -/
theorem c10_null_is_int64_zero_witness :
    stepConst ACONST_NULL [] = some [Val.i 0] ∧
    (branchTaken ⟨[0xC6, 0x00, 0x05], 0, [Val.i 0]⟩ = true ↔ (0 : Int) = 0) ∧
    (branchTaken ⟨[0xC7, 0x00, 0x05], 0, [Val.i 0]⟩ = true ↔ (0 : Int) ≠ 0) := by
  have h := c10_null_is_int64_zero [] ⟨[0xC6, 0x00, 0x05], 0, [Val.i 0]⟩ 0 []
  have h2 := c10_null_is_int64_zero [] ⟨[0xC7, 0x00, 0x05], 0, [Val.i 0]⟩ 0 []
  exact ⟨h.1, h.2.2.1 (by decide) rfl, h2.2.2.2.1 (by decide) rfl⟩

/-- The dimension-popping loop of MULTIANEWARRAY (run.go 1754-1756):
`for i := dimensionCount - 1; i >= 0; i-- { dimSizes[i] = pop(f).(int64) }`.
The first value popped (the top of the stack) lands in the highest slot, so
`dimSizes[0]` holds the first (outermost) dimension.  `none` is a Go panic
(bad type assertion or empty-stack pop). -/
def popDims : Nat → List Val → Option (List Int × List Val)
  | 0, s => some ([], s)
  | n + 1, Val.i v :: s =>
      match popDims n s with
      | some (ds, s2) => some (ds ++ [v], s2)
      | none => none
  | _ + 1, _ => none

/-- Popping `ks.length` ints off a stack whose top-first prefix is `ks`
yields the dimension sizes in reverse pop order. -/
theorem popDims_spec (ks : List Int) (rest : List Val) :
    popDims ks.length (ks.map Val.i ++ rest) = some (ks.reverse, rest) := by
  induction ks with
  | nil => rfl
  | cons k l ih => simp [popDims, ih]

/-- The body of the zero-dimension scan (run.go 1762-1769) once a zero is
known to occur: `dimSizes = dimSizes[i+1:]` at the first index `i` holding
0, i.e. everything up to and including the first 0 is dropped. -/
def dropThroughZero : List Int → List Int
  | [] => []
  | d :: rest => if d = 0 then rest else dropThroughZero rest

/-- The zero-dimension scan of MULTIANEWARRAY (run.go 1762-1769): when some
dimension size is 0, the slice is cut to the part after the first 0 (the
`break` stops the scan there); otherwise the sizes are unchanged. -/
def truncateDims (dims : List Int) : List Int :=
  if dims.any (fun d => d == 0) then dropThroughZero dims else dims

/-- Outcome of the dimension handling of MULTIANEWARRAY: the error return
for more than three dimensions, or the final dimension sizes together with
the warning flag (a warning is logged exactly when a zero size was seen)
and the remaining operand stack. -/
inductive MultiOut where
  | err : MultiOut
  | ok : List Int → Bool → List Val → MultiOut
  | goPanic : MultiOut
deriving DecidableEq

/-- The dimension handling of MULTIANEWARRAY (run.go 1738-1769): reject a
dimension count above 3 with an error; pop one int per dimension off the
operand stack in reverse order; cut the sizes at the first zero, logging a
warning. -/
def multiDims (dimensionCount : Nat) (s : List Val) : MultiOut :=
  if 3 < dimensionCount then .err
  else
    match popDims dimensionCount s with
    | none => .goPanic
    | some (dimSizes, s2) =>
        .ok (truncateDims dimSizes) (dimSizes.any (fun d => d == 0)) s2

/-- C5 counterexample: dimensions [2, 0, 3] (pushed first-to-last, so the
last dimension 3 is on top of the stack).  The code keeps only the deeper
dimension [3]; the claim, as stated, requires the shallower dimension 2 to
be kept and the deeper dimension 3 to be truncated, which the result
violates. -/
theorem c5_zero_dim_counterexample :
    multiDims 3 [Val.i 3, Val.i 0, Val.i 2] = .ok [3] true [] ∧
    ¬ ((2 : Int) ∈ ([3] : List Int) ∧ (3 : Int) ∉ ([3] : List Int)) := by
  exact ⟨rfl, by decide⟩

theorem dropThroughZero_append (pre post : List Int) (h : (0 : Int) ∉ pre) :
    dropThroughZero (pre ++ 0 :: post) = post := by
  induction pre with
  | nil => simp [dropThroughZero]
  | cons a l ih =>
      have ha : a ≠ 0 := fun h0 => h (by simp [h0])
      have hl : (0 : Int) ∉ l := fun h0 => h (by simp [h0])
      simp [dropThroughZero, ha, ih hl]

/-- C5 as amended: a dimension count above 3 is rejected with an error; the
dimension sizes are popped off the operand stack in reverse order (last
dimension at the top); and when some popped size is 0, the zero-sized
dimension and all shallower (preceding) dimensions are dropped -- only the
deeper (following) dimensions survive -- with a warning logged exactly when
a zero was seen; without a zero the sizes are kept unchanged. -/
theorem c5_multianewarray_dims (n : Nat) (ks pre post : List Int) (rest s : List Val)
    (hn : n ≤ 3) (hk : n = ks.length) (hpre : (0 : Int) ∉ pre) :
    multiDims n (ks.map Val.i ++ rest) =
      .ok (truncateDims ks.reverse) (ks.reverse.any (fun d => d == 0)) rest ∧
    (∀ m : Nat, 3 < m → multiDims m s = .err) ∧
    truncateDims (pre ++ 0 :: post) = post ∧
    truncateDims pre = pre := by
  subst hk
  refine ⟨?_, fun m hm => by simp [multiDims, hm], ?_, ?_⟩
  · simp [multiDims, Nat.not_lt.mpr hn, popDims_spec]
  · have hany : (pre ++ 0 :: post).any (fun d => d == 0) = true := by
      simp
    simp [truncateDims, hany, dropThroughZero_append pre post hpre]
  · have hany : pre.any (fun d => d == 0) = false := by
      simp only [List.any_eq_false]
      intro x hx
      simp only [beq_iff_eq]
      exact fun h0 => hpre (h0 ▸ hx)
    simp [truncateDims, hany]

/-- Witness for c5_multianewarray_dims: three dimensions [2, 0, 3] popped
off the stack [3, 0, 2] (top first); the surviving sizes are [3] with a
warning; a 4-dimension request errors; [5] ++ 0 :: [7] truncates to [7];
[5] stays [5]. -/
theorem c5_multianewarray_dims_witness :
    multiDims 3 [Val.i 3, Val.i 0, Val.i 2] = .ok [3] true [] ∧
    multiDims 4 [] = .err ∧
    truncateDims ([5] ++ 0 :: [7]) = [7] ∧
    truncateDims [5] = [5] := by
  have h := c5_multianewarray_dims 3 [3, 0, 2] [5] [7] [] []
    (by decide) (by decide) (by decide)
  refine ⟨?_, h.2.1 4 (by decide), h.2.2.1, h.2.2.2⟩
  have h1 := h.1
  simpa [truncateDims, dropThroughZero] using h1

/-- The constant-pool entry kinds relevant to the claims (classloader's
cpEntry tags). -/
inductive CpKind where
  | Utf8 : CpKind
  | IntConst : CpKind
  | FloatConst : CpKind
  | LongConst : CpKind
  | DoubleConst : CpKind
  | ClassRef : CpKind
  | StringConst : CpKind
  | FieldRef : CpKind
  | NameAndType : CpKind
  | Dummy : CpKind
deriving DecidableEq

/-- One entry of `cpIndex`: `{entryType, slot}`, the slot indexing the
per-kind array. -/
structure CpEntry where
  entryType : CpKind
  slot : Int
deriving DecidableEq

/-- The part of classloader's `parsedClass` used by the UTF8 lookup
helpers: `cpCount`, `cpIndex` and `utf8Refs` (each utf8Entry reduced to
its `content` string). -/
structure PClass where
  cpCount : Int
  cpIndex : List CpEntry
  utf8Refs : List String
deriving DecidableEq

/-- parserUtils.go 37-52, `fetchUTF8string`: reject an index below 1 or
above `cpCount - 1`; reject a non-UTF8 entry; reject a slot outside
`utf8Refs`; otherwise return the slot's string.  Failures are the
`cfe(...)` ClassFormatError returns. -/
def fetchUTF8string (klass : PClass) (index : Int) : Except String String :=
  if index < 1 ∨ index > klass.cpCount - 1 then
    .error "attempt to fetch invalid UTF8 CP entry"
  else if (klass.cpIndex.getD index.toNat ⟨CpKind.Dummy, 0⟩).entryType ≠ CpKind.Utf8 then
    .error "attempt to fetch UTF8 string from non-UTF8 CP entry"
  else
    let i := (klass.cpIndex.getD index.toNat ⟨CpKind.Dummy, 0⟩).slot
    if i < 0 ∨ i > (klass.utf8Refs.length : Int) - 1 then
      .error "invalid index into UTF8 array of CP"
    else
      .ok (klass.utf8Refs.getD i.toNat "")

/-- parserUtils.go 56-70, `fetchUTF8slot`: same validation as
`fetchUTF8string`, returning the slot number instead of the string. -/
def fetchUTF8slot (klass : PClass) (index : Int) : Except String Int :=
  if index < 1 ∨ index > klass.cpCount - 1 then
    .error "attempt to fetch invalid UTF8 CP entry"
  else if (klass.cpIndex.getD index.toNat ⟨CpKind.Dummy, 0⟩).entryType ≠ CpKind.Utf8 then
    .error "attempt to fetch UTF8 string from non-UTF8 CP entry"
  else
    let slot := (klass.cpIndex.getD index.toNat ⟨CpKind.Dummy, 0⟩).slot
    if slot < 0 ∨ slot > (klass.utf8Refs.length : Int) - 1 then
      .error "invalid index into UTF8 array of CP"
    else
      .ok slot

/-- C7: the central UTF8 lookup helpers succeed (returning the string,
resp. the slot) exactly when the CP index is in [1, cpCount), the indexed
entry has kind Utf8, and the entry's slot is a valid index into utf8Refs;
in every other case they fail with a ClassFormatError and return no
string.  Both helpers succeed on exactly the same inputs. -/
theorem c7_utf8_lookup_validation (klass : PClass) (index : Int) :
    ((∃ s, fetchUTF8string klass index = .ok s) ↔
      (1 ≤ index ∧ index < klass.cpCount ∧
        (klass.cpIndex.getD index.toNat ⟨CpKind.Dummy, 0⟩).entryType = CpKind.Utf8 ∧
        0 ≤ (klass.cpIndex.getD index.toNat ⟨CpKind.Dummy, 0⟩).slot ∧
        (klass.cpIndex.getD index.toNat ⟨CpKind.Dummy, 0⟩).slot <
          (klass.utf8Refs.length : Int))) ∧
    ((∃ t, fetchUTF8slot klass index = .ok t) ↔
      (∃ s, fetchUTF8string klass index = .ok s)) ∧
    ((∃ s, fetchUTF8string klass index = .ok s) ∨
      (∃ m, fetchUTF8string klass index = .error m)) := by
  refine ⟨?_, ?_, ?_⟩
  · constructor
    · intro hok
      obtain ⟨s, hs⟩ := hok
      unfold fetchUTF8string at hs
      by_cases h1 : index < 1 ∨ index > klass.cpCount - 1
      · rw [if_pos h1] at hs; exact absurd hs (by simp)
      · rw [if_neg h1] at hs
        by_cases h2 : (klass.cpIndex.getD index.toNat ⟨CpKind.Dummy, 0⟩).entryType ≠ CpKind.Utf8
        · rw [if_pos h2] at hs; exact absurd hs (by simp)
        · rw [if_neg h2] at hs
          by_cases h3 : (klass.cpIndex.getD index.toNat ⟨CpKind.Dummy, 0⟩).slot < 0 ∨
              (klass.cpIndex.getD index.toNat ⟨CpKind.Dummy, 0⟩).slot >
                (klass.utf8Refs.length : Int) - 1
          · rw [if_pos h3] at hs; exact absurd hs (by simp)
          · push_neg at h1 h2 h3
            exact ⟨by omega, by omega, not_not.mp (by simpa using h2), by omega, by omega⟩
    · rintro ⟨hge, hlt, hk, hs0, hslen⟩
      refine ⟨klass.utf8Refs.getD
        (klass.cpIndex.getD index.toNat ⟨CpKind.Dummy, 0⟩).slot.toNat "", ?_⟩
      unfold fetchUTF8string
      rw [if_neg (by omega), if_neg (by simpa using hk), if_neg (by omega)]
  · constructor
    · rintro ⟨t, ht⟩
      unfold fetchUTF8slot at ht
      unfold fetchUTF8string
      by_cases h1 : index < 1 ∨ index > klass.cpCount - 1
      · rw [if_pos h1] at ht; exact absurd ht (by simp)
      · rw [if_neg h1] at ht
        rw [if_neg h1]
        by_cases h2 : (klass.cpIndex.getD index.toNat ⟨CpKind.Dummy, 0⟩).entryType ≠ CpKind.Utf8
        · rw [if_pos h2] at ht; exact absurd ht (by simp)
        · rw [if_neg h2] at ht
          rw [if_neg h2]
          by_cases h3 : (klass.cpIndex.getD index.toNat ⟨CpKind.Dummy, 0⟩).slot < 0 ∨
              (klass.cpIndex.getD index.toNat ⟨CpKind.Dummy, 0⟩).slot >
                (klass.utf8Refs.length : Int) - 1
          · rw [if_pos h3] at ht; exact absurd ht (by simp)
          · rw [if_neg h3]
            exact ⟨_, rfl⟩
    · rintro ⟨s, hs⟩
      unfold fetchUTF8string at hs
      unfold fetchUTF8slot
      by_cases h1 : index < 1 ∨ index > klass.cpCount - 1
      · rw [if_pos h1] at hs; exact absurd hs (by simp)
      · rw [if_neg h1] at hs
        rw [if_neg h1]
        by_cases h2 : (klass.cpIndex.getD index.toNat ⟨CpKind.Dummy, 0⟩).entryType ≠ CpKind.Utf8
        · rw [if_pos h2] at hs; exact absurd hs (by simp)
        · rw [if_neg h2] at hs
          rw [if_neg h2]
          by_cases h3 : (klass.cpIndex.getD index.toNat ⟨CpKind.Dummy, 0⟩).slot < 0 ∨
              (klass.cpIndex.getD index.toNat ⟨CpKind.Dummy, 0⟩).slot >
                (klass.utf8Refs.length : Int) - 1
          · rw [if_pos h3] at hs; exact absurd hs (by simp)
          · rw [if_neg h3]
            exact ⟨_, rfl⟩
  · unfold fetchUTF8string
    by_cases h1 : index < 1 ∨ index > klass.cpCount - 1
    · rw [if_pos h1]; exact Or.inr ⟨_, rfl⟩
    · rw [if_neg h1]
      by_cases h2 : (klass.cpIndex.getD index.toNat ⟨CpKind.Dummy, 0⟩).entryType ≠ CpKind.Utf8
      · rw [if_pos h2]; exact Or.inr ⟨_, rfl⟩
      · rw [if_neg h2]
        by_cases h3 : (klass.cpIndex.getD index.toNat ⟨CpKind.Dummy, 0⟩).slot < 0 ∨
            (klass.cpIndex.getD index.toNat ⟨CpKind.Dummy, 0⟩).slot >
              (klass.utf8Refs.length : Int) - 1
        · rw [if_pos h3]; exact Or.inr ⟨_, rfl⟩
        · rw [if_neg h3]; exact Or.inl ⟨_, rfl⟩

/-- The runtime constant pool (classloader's CPool) as used by
instantiate.go's createField: the cpIndex plus the per-kind constant
arrays.  IntConsts holds int32 values, Floats holds float32 values (their
widenings to int64/float64 are value-preserving, so both are kept in the
wider carrier here). -/
structure CPool where
  cpIndex : List CpEntry
  intConsts : List Int
  longConsts : List Int
  floats : List ℚ
  doubles : List ℚ
  utf8Refs : List String
deriving DecidableEq

/-- A field attribute (classloader's attr): the name as a slot into
utf8Refs, and the raw content bytes. -/
structure FAttr where
  attrName : Nat
  attrContent : List Nat
deriving DecidableEq

/-- A parsed field (classloader's Field) as consumed by createField. -/
structure ClField where
  name : Nat
  desc : Nat
  isStatic : Bool
  attributes : List FAttr
deriving DecidableEq

/-- The value stored into a created field's Fvalue: nil, an int64, a
float64 (exact rational carrier), or a freshly allocated java/lang/String
object wrapping the utf8 string (object.NewStringFromGoString). -/
inductive FVal where
  | nullRef : FVal
  | ival : Int → FVal
  | fval : ℚ → FVal
  | strObj : String → FVal
deriving DecidableEq

/-- instantiate.go 242-253: the default Fvalue from the first character of
the field's descriptor.  types.Ref = "L", types.Array = "[", types.Byte,
Char, Int, Long, Short, Bool = "B","C","I","J","S","Z", types.Double,
Float = "D","F" (the jacobin/types constants; their values are fixed by
the spec's descriptor table).  Any other first character is a
ClassFormatError. -/
def defaultFVal (c : Char) : Except String FVal :=
  if c = 'L' ∨ c = '[' then .ok .nullRef
  else if c = 'B' ∨ c = 'C' ∨ c = 'I' ∨ c = 'J' ∨ c = 'S' ∨ c = 'Z' then .ok (.ival 0)
  else if c = 'D' ∨ c = 'F' then .ok (.fval 0)
  else .error "invalid field type"

/-- The first character of a descriptor string (Go `desc[0]`; descriptors
in class files are nonempty, and the theorems below fix the head
explicitly). -/
def firstChar (s : String) : Char := s.toList.headD '0'

/-- instantiate.go 266-294: one iteration of the attribute loop.  An
attribute named ConstantValue on a static field replaces the current value
with the CP constant named by the attribute's two body bytes, converted
per its kind (IntConst widened to int64, LongConst kept, FloatConst
widened to float64, DoubleConst kept, StringConst wrapped in a new
java/lang/String); an unexpected kind is an error.  Any other attribute
leaves the value unchanged. -/
def applyConstantValue (cp : CPool) (isStatic : Bool) (a : FAttr) (cur : FVal) :
    Except String FVal :=
  if cp.utf8Refs.getD a.attrName "" = "ConstantValue" ∧ isStatic = true then
    let valueIndex := a.attrContent.getD 0 0 * 256 + a.attrContent.getD 1 0
    let e := cp.cpIndex.getD valueIndex ⟨CpKind.Dummy, 0⟩
    match e.entryType with
    | CpKind.IntConst => .ok (.ival (cp.intConsts.getD e.slot.toNat 0))
    | CpKind.LongConst => .ok (.ival (cp.longConsts.getD e.slot.toNat 0))
    | CpKind.FloatConst => .ok (.fval (cp.floats.getD e.slot.toNat 0))
    | CpKind.DoubleConst => .ok (.fval (cp.doubles.getD e.slot.toNat 0))
    | CpKind.StringConst => .ok (.strObj (cp.utf8Refs.getD e.slot.toNat ""))
    | _ => .error "unexpected ConstantValue type in instantiate"
  else .ok cur

/-- instantiate.go 266-294: the loop over the field's attributes, applying
each ConstantValue attribute in turn; an error aborts createField. -/
def applyAttrs (cp : CPool) (isStatic : Bool) : List FAttr → FVal → Except String FVal
  | [], cur => .ok cur
  | a :: rest, cur =>
      match applyConstantValue cp isStatic a cur with
      | .error m => .error m
      | .ok cur2 => applyAttrs cp isStatic rest cur2

/-- instantiate.go 232-311, createField, reduced to the computation of the
field's initial Fvalue: the default is chosen from the first character of
the descriptor (fetched from utf8Refs via the field's desc slot) -- an
unrecognized character is a ClassFormatError -- then the attribute loop
applies any ConstantValue attribute of a static field. -/
def createField (cp : CPool) (fld : ClField) : Except String FVal :=
  match defaultFVal (firstChar (cp.utf8Refs.getD fld.desc "")) with
  | .error m => .error m
  | .ok v0 => applyAttrs cp fld.isStatic fld.attributes v0

/-- C8: a created field's initial value is determined solely by the first
character of its descriptor (L and [ give null; B, C, I, J, S, Z give the
int64 0; F and D give the float64 0.0; anything else is a
ClassFormatError), and a static field carrying a ConstantValue attribute
instead takes its value from the CP entry named by the attribute's
two-byte body, converted IntConst to int64, LongConst to int64, FloatConst
to float64, DoubleConst to float64, and StringConst to a newly allocated
java/lang/String object. -/
theorem c8_field_initial_value (cp : CPool) (fld : ClField) (c : Char)
    (hdesc : firstChar (cp.utf8Refs.getD fld.desc "") = c) :
    (fld.attributes = [] →
      ((c = 'L' ∨ c = '[') → createField cp fld = .ok .nullRef) ∧
      (c ∈ ['B', 'C', 'I', 'J', 'S', 'Z'] → createField cp fld = .ok (.ival 0)) ∧
      ((c = 'F' ∨ c = 'D') → createField cp fld = .ok (.fval 0)) ∧
      (c ∉ ['L', '[', 'B', 'C', 'I', 'J', 'S', 'Z', 'F', 'D'] →
        ∃ m, createField cp fld = .error m)) ∧
    (∀ a e, fld.isStatic = true → fld.attributes = [a] →
      cp.utf8Refs.getD a.attrName "" = "ConstantValue" →
      cp.cpIndex.getD (a.attrContent.getD 0 0 * 256 + a.attrContent.getD 1 0)
        ⟨CpKind.Dummy, 0⟩ = e →
      c = 'I' →
      (e.entryType = CpKind.IntConst →
        createField cp fld = .ok (.ival (cp.intConsts.getD e.slot.toNat 0))) ∧
      (e.entryType = CpKind.LongConst →
        createField cp fld = .ok (.ival (cp.longConsts.getD e.slot.toNat 0))) ∧
      (e.entryType = CpKind.FloatConst →
        createField cp fld = .ok (.fval (cp.floats.getD e.slot.toNat 0))) ∧
      (e.entryType = CpKind.DoubleConst →
        createField cp fld = .ok (.fval (cp.doubles.getD e.slot.toNat 0))) ∧
      (e.entryType = CpKind.StringConst →
        createField cp fld = .ok (.strObj (cp.utf8Refs.getD e.slot.toNat "")))) := by
  simp only [List.getD_eq_getElem?_getD] at hdesc
  constructor
  · intro hattr
    refine ⟨fun hc => ?_, fun hc => ?_, fun hc => ?_, fun hc => ?_⟩
    · rcases hc with rfl | rfl <;>
        simp [createField, hdesc, defaultFVal, hattr, applyAttrs]
    · simp only [List.mem_cons, List.not_mem_nil, or_false] at hc
      rcases hc with rfl | rfl | rfl | rfl | rfl | rfl <;>
        simp [createField, hdesc, defaultFVal, hattr, applyAttrs]
    · rcases hc with rfl | rfl <;>
        simp [createField, hdesc, defaultFVal, hattr, applyAttrs]
    · simp only [List.mem_cons, List.not_mem_nil, or_false, not_or] at hc
      obtain ⟨hL, hBr, hB, hC, hI, hJ, hS, hZ, hF, hD⟩ := hc
      refine ⟨"invalid field type", ?_⟩
      simp [createField, hdesc, defaultFVal, hattr, applyAttrs, hL, hBr, hB, hC, hI,
        hJ, hS, hZ, hF, hD]
  · rintro a e hstat hattr hname hcp rfl
    subst hcp
    simp only [List.getD_eq_getElem?_getD] at hname ⊢
    refine ⟨fun hk => ?_, fun hk => ?_, fun hk => ?_, fun hk => ?_, fun hk => ?_⟩ <;>
      simp only [List.getD_eq_getElem?_getD] at hk <;>
      simp [createField, hdesc, defaultFVal, hattr, applyAttrs, applyConstantValue,
        hname, hstat, hk]

/-- Witness for c8_field_initial_value: a class with utf8Refs
["I", "theField", "ConstantValue"], an int constant 77 in the CP, and a
static int field with a ConstantValue attribute pointing at CP entry 1;
without attributes the field defaults to int64 0, with the attribute it
takes the value 77. -/
theorem c8_field_initial_value_witness :
    createField
      ⟨[⟨CpKind.Dummy, 0⟩, ⟨CpKind.IntConst, 0⟩], [77], [], [], [],
        ["I", "theField", "ConstantValue"]⟩
      ⟨1, 0, false, []⟩ = .ok (.ival 0) ∧
    createField
      ⟨[⟨CpKind.Dummy, 0⟩, ⟨CpKind.IntConst, 0⟩], [77], [], [], [],
        ["I", "theField", "ConstantValue"]⟩
      ⟨1, 0, true, [⟨2, [0, 1]⟩]⟩ = .ok (.ival 77) := by
  have h1 := c8_field_initial_value
    ⟨[⟨CpKind.Dummy, 0⟩, ⟨CpKind.IntConst, 0⟩], [77], [], [], [],
      ["I", "theField", "ConstantValue"]⟩
    ⟨1, 0, false, []⟩ 'I' (by decide)
  have h2 := c8_field_initial_value
    ⟨[⟨CpKind.Dummy, 0⟩, ⟨CpKind.IntConst, 0⟩], [77], [], [], [],
      ["I", "theField", "ConstantValue"]⟩
    ⟨1, 0, true, [⟨2, [0, 1]⟩]⟩ 'I' (by decide)
  refine ⟨(h1.1 rfl).2.1 (by decide), ?_⟩
  have h3 := (h2.2 ⟨2, [0, 1]⟩ ⟨CpKind.IntConst, 0⟩ rfl rfl (by decide) (by decide)
    rfl).1 rfl
  simpa using h3

/-- Association-list lookup standing for a read of the Statics map
(`classloader.Statics[key]`): the value at the first binding of the key,
or `none` when the key is absent. -/
def lookupStatic {α : Type} : List (String × α) → String → Option α
  | [], _ => none
  | (k, v) :: rest, key => if k = key then some v else lookupStatic rest key

/-- Modelled from the spec: `classloader.AddStatic` (the statics-table
insert; its body is not part of the sources under study, only its callers
are).  Per the spec, re-adding a key is a no-op -- the first value wins --
so an insert under a present key leaves the table unchanged, and a fresh
key is appended. -/
def addStatic {α : Type} (tbl : List (String × α)) (key : String) (v : α) :
    List (String × α) :=
  if (lookupStatic tbl key).isSome then tbl else tbl ++ [(key, v)]

/-- instantiate.go 296-309: createField's statics insertion for a static
field: look the full field name up in the Statics table and call AddStatic
only when the key is not already present. -/
def createFieldStaticInsert {α : Type} (tbl : List (String × α)) (key : String)
    (v : α) : List (String × α) :=
  if (lookupStatic tbl key).isSome then tbl else addStatic tbl key v

/-- The statics state of run.go's GETSTATIC: the name-to-index map
(`classloader.Statics`) and the appended array of Static records
(`classloader.StaticsArray`, its entries abstracted to the field's type
string). -/
structure StaticsState where
  statics : List (String × Int)
  staticsArray : List String
deriving DecidableEq

/-- run.go 1328-1352, the statics handling of GETSTATIC: if the field name
was previously loaded, push the stored index and leave the tables alone;
otherwise append a new Static record, map the name to its index
`len(StaticsArray) - 1`, and push that index. -/
def getstaticResolve (st : StaticsState) (fieldName : String) (fieldType : String) :
    StaticsState × Int :=
  match lookupStatic st.statics fieldName with
  | some prevLoaded => (st, prevLoaded)
  | none =>
      let arr2 := st.staticsArray ++ [fieldType]
      ({ statics := st.statics ++ [(fieldName, (arr2.length : Int) - 1)],
         staticsArray := arr2 }, (arr2.length : Int) - 1)

theorem lookupStatic_append_of_none {α : Type} (tbl : List (String × α)) (key : String)
    (v : α) (h : lookupStatic tbl key = none) :
    lookupStatic (tbl ++ [(key, v)]) key = some v := by
  induction tbl with
  | nil => simp [lookupStatic]
  | cons p rest ih =>
      obtain ⟨k, w⟩ := p
      by_cases hk : k = key
      · rw [lookupStatic, if_pos hk] at h
        exact absurd h (by simp)
      · rw [lookupStatic, if_neg hk] at h
        rw [List.cons_append, lookupStatic, if_neg hk]
        exact ih h

/-- C9: adding a statics entry under a key that is already present leaves
the table unchanged (the first value wins, also across a second add), and
both statics-inserting code paths -- createField's guarded insert and
GETSTATIC's lazy creation -- are idempotent: a second processing of the
same key changes neither the tables nor, for GETSTATIC, the pushed
index. -/
theorem c9_statics_insert_once {α : Type} (tbl : List (String × α)) (key : String)
    (v w : α) (st : StaticsState) (nm ty ty2 : String)
    (hpresent : (lookupStatic tbl key).isSome) :
    addStatic tbl key w = tbl ∧
    (lookupStatic tbl key = none →
      lookupStatic (addStatic (addStatic tbl key v) key w) key = some v) ∧
    createFieldStaticInsert (createFieldStaticInsert tbl key v) key w =
      createFieldStaticInsert tbl key v ∧
    (getstaticResolve ((getstaticResolve st nm ty).1) nm ty2 =
      ((getstaticResolve st nm ty).1, (getstaticResolve st nm ty).2)) := by
  refine ⟨by simp [addStatic, hpresent], fun hnone => ?_, ?_, ?_⟩
  · have h1 : addStatic tbl key v = tbl ++ [(key, v)] := by
      simp [addStatic, hnone]
    have h2 : lookupStatic (tbl ++ [(key, v)]) key = some v :=
      lookupStatic_append_of_none tbl key v hnone
    rw [h1, addStatic, if_pos (by simp [h2])]
    exact h2
  · by_cases h : (lookupStatic tbl key).isSome
    · simp [createFieldStaticInsert, h]
    · have hnone : lookupStatic tbl key = none :=
        Option.not_isSome_iff_eq_none.mp h
      have h1 : createFieldStaticInsert tbl key v = tbl ++ [(key, v)] := by
        simp [createFieldStaticInsert, addStatic, hnone, h]
      have h2 : lookupStatic (tbl ++ [(key, v)]) key = some v :=
        lookupStatic_append_of_none tbl key v hnone
      rw [h1, createFieldStaticInsert, if_pos (by simp [h2])]
  · match hres : lookupStatic st.statics nm with
    | some prev =>
        simp [getstaticResolve, hres]
    | none =>
        have h2 : lookupStatic (st.statics ++ [(nm, (st.staticsArray.length : Int))]) nm
            = some (st.staticsArray.length : Int) :=
          lookupStatic_append_of_none st.statics nm _ hres
        simp [getstaticResolve, hres, h2]

/-- Witness for c9_statics_insert_once at a one-entry table containing the
key and a fresh GETSTATIC state. -/
theorem c9_statics_insert_once_witness :
    addStatic [("C.f", (5 : Int))] "C.f" 9 = [("C.f", (5 : Int))] ∧
    createFieldStaticInsert
      (createFieldStaticInsert [("C.f", (5 : Int))] "C.f" 7) "C.f" 9 =
      createFieldStaticInsert [("C.f", (5 : Int))] "C.f" 7 ∧
    getstaticResolve ((getstaticResolve ⟨[], []⟩ "D.g" "I").1) "D.g" "I" =
      ((getstaticResolve ⟨[], []⟩ "D.g" "I").1,
        (getstaticResolve ⟨[], []⟩ "D.g" "I").2) := by
  have h := c9_statics_insert_once [("C.f", (5 : Int))] "C.f" 7 9 ⟨[], []⟩ "D.g" "I" "I"
    (by decide)
  exact ⟨h.1, h.2.2.1, h.2.2.2⟩
